import Mathlib

/-!
Verification of the mysqldump repository's statement splitter, insert
batcher, replay executor and row encoder.  Go strings are modelled as
`List Char` (the inputs of interest are ASCII, where Go's byte indexing
and our character indexing coincide).
-/

set_option maxRecDepth 10000

/-- Characters of a Lean string literal, used to write Go string constants. -/
def strL (s : String) : List Char := s.toList

/-- Go `strings.TrimSuffix s suf`: removes one trailing copy of `suf` if present. -/
def dropSuffixIf (s suf : List Char) : List Char :=
  if List.isSuffixOf suf s then s.take (s.length - suf.length) else s

/-- Go `strings.TrimPrefix s pre`: removes one leading copy of `pre` if present. -/
def dropPrefixIf (s pre : List Char) : List Char :=
  if List.isPrefixOf pre s then s.drop pre.length else s

/-- Go `strings.Index s pat`: position of the first occurrence of `pat` in `s`
(`none` models the -1 "not found" result). -/
def strIndex (s pat : List Char) : Option Nat :=
  match s with
  | [] => if pat = [] then some 0 else none
  | _ :: rest =>
    if List.isPrefixOf pat s then some 0
    else (strIndex rest pat).map (· + 1)

/-- The `VALUES` keyword searched for by `mergeInsert` (source.go line 196). -/
def valuesKW : List Char := strL "VALUES"

/-- The loop of `mergeInsert` over `insertSQLs[1:]` (source.go lines 191-205):
`n` is `len(insertSQLs)` and `i` the running index of the Go `range`. -/
def mergeInsertLoop (n : Nat) : List (List Char) → Nat → Except (List Char) (List Char)
  | [], _ => .ok []
  | insertSQL :: rest, i =>
    let comma : List Char := if i < n - 1 then [','] else []
    match strIndex insertSQL valuesKW with
    | none => .error (strL "invalid SQL: missing VALUES keyword")
    | some valuesIdx =>
      let sqln := dropSuffixIf (dropPrefixIf (insertSQL.drop valuesIdx) valuesKW) (strL ";")
      match mergeInsertLoop n rest (i + 1) with
      | .error e => .error e
      | .ok tailStr => .ok (comma ++ sqln ++ tailStr)

/-- Go `mergeInsert` (source.go lines 183-209): merges several INSERT
statements into one, or fails on empty input / a later statement without
`VALUES`. -/
def mergeInsert (insertSQLs : List (List Char)) : Except (List Char) (List Char) :=
  match insertSQLs with
  | [] => .error (strL "no input provided")
  | sql1 :: rest =>
    match mergeInsertLoop (sql1 :: rest).length rest 0 with
    | .error e => .error e
    | .ok tailStr => .ok (dropSuffixIf sql1 (strL ";") ++ tailStr ++ [';'])

example :
    mergeInsert [strL "INSERT INTO `test` VALUES (1, 'a');",
                 strL "INSERT INTO `test` VALUES (2, 'b');"] =
      .ok (strL "INSERT INTO `test` VALUES (1, 'a'), (2, 'b');") := by rfl

/-- Go's `unicode.IsSpace` restricted to the Latin-1 range (the inputs this
development evaluates are ASCII, where this is exact). -/
def goIsSpace (c : Char) : Bool :=
  c = ' ' || c = '\t' || c = '\n' || Char.ofNat 11 = c || Char.ofNat 12 = c ||
  c = '\r' || Char.ofNat 133 = c || Char.ofNat 160 = c

/-- Go `trim` (source.go lines 212-216): `strings.TrimLeft(s, "\n")` followed
by `strings.TrimSpace(s)`. -/
def trim (s : List Char) : List Char :=
  let s1 := s.dropWhile (· = '\n')
  ((s1.dropWhile goIsSpace).reverse.dropWhile goIsSpace).reverse

/-- `bufio.Reader.ReadString ';'`: the chunk up to and including the first
`;` together with the rest of the stream; `none` models the `io.EOF` case
(the partial data before EOF is discarded by every caller in source.go). -/
def readString (input : List Char) : Option (List Char × List Char) :=
  match input with
  | [] => none
  | c :: rest =>
    if c = ';' then some ([c], rest)
    else
      match readString rest with
      | none => none
      | some (chunk, r) => some (c :: chunk, r)

/-- The read-and-trim statement stream of `Source` with merging disabled
(source.go lines 97-115), fuelled: `splitStmts` supplies sufficient fuel. -/
def splitStatements : Nat → List Char → List (List Char)
  | 0, _ => []
  | fuel + 1, input =>
    match readString input with
    | none => []
    | some (line, rest) => trim line :: splitStatements fuel rest

/-- The statement splitter: each unit is read up to and including `;`, then
trimmed; a trailing fragment with no delimiter is dropped. -/
def splitStmts (input : List Char) : List (List Char) :=
  splitStatements (input.length + 1) input

example : splitStmts (strL "A;B;") = [strL "A;", strL "B;"] := by rfl
example : splitStmts (strL "A;B") = [strL "A;"] := by rfl

/-- Go `strings.Split` with a one-character separator. -/
def splitOnChar (sep : Char) : List Char → List (List Char)
  | [] => [[]]
  | c :: rest =>
    match splitOnChar sep rest with
    | [] => [[]]
    | h :: t => if c = sep then [] :: h :: t else (c :: h) :: t

/-- Go `GetDBNameFromDNS` (util.go): the database name between the `/` and
the `?` of a connection string; `none` models the error return. -/
def getDBNameFromDNS (dns : List Char) : Option (List Char) :=
  match splitOnChar '/' dns with
  | [_, s1] =>
    match splitOnChar '?' s1 with
    | [name, _] => some name
    | _ => none
  | _ => none

example : getDBNameFromDNS (strL "root:pwd@tcp(localhost)/db?charset=utf8") = some (strL "db") := by rfl

/-- The inner lookahead loop of `Source` (source.go lines 120-142): collect up
to `n` further trimmed statements as long as they begin with `INSERT INTO`;
a non-INSERT statement is consumed and dropped, EOF stops the collection.
Returns the collected statements and the remaining stream. -/
def collectInserts : Nat → List Char → List (List Char) × List Char
  | 0, input => ([], input)
  | n + 1, input =>
    match readString input with
    | none => ([], input)
    | some (line, rest) =>
      let ssql2 := trim line
      if List.isPrefixOf (strL "INSERT INTO") ssql2 then
        let p := collectInserts n rest
        (ssql2 :: p.1, p.2)
      else ([], rest)

/-- Outcome of a replay run. -/
inductive SrcErr where
  | execErr (stmt : List Char)
  | mergeErr (msg : List Char)
  | dnsErr
deriving DecidableEq

/-- The statement loop of `Source` (source.go lines 97-156): read a unit, trim
it, optionally merge a batch of INSERTs, and execute it.  `fails` tells which
statements the connection rejects (`Exec` in dry-run mode never fails, which
is `fun s => false`).  Returns the statements handed to `Exec` in order, and
the error, if any, that aborted the loop.  Fuelled on the stream length. -/
def sourceLoop (fails : List Char → Bool) (merge : Int) :
    Nat → List Char → List (List Char) × Option SrcErr
  | 0, _ => ([], none)
  | fuel + 1, input =>
    match readString input with
    | none => ([], none)
    | some (line, rest) =>
      let ssql := trim line
      if merge > 1 ∧ List.isPrefixOf (strL "INSERT INTO") ssql then
        let p := collectInserts (merge - 1).toNat rest
        match mergeInsert (ssql :: p.1) with
        | .error e => ([], some (.mergeErr e))
        | .ok m =>
          if fails m then ([m], some (.execErr m))
          else
            let q := sourceLoop fails merge fuel p.2
            (m :: q.1, q.2)
      else
        if fails ssql then ([ssql], some (.execErr ssql))
        else
          let q := sourceLoop fails merge fuel rest
          (ssql :: q.1, q.2)

/-- The statement loop of `Source` with its fuel supplied. -/
def sourceBody (fails : List Char → Bool) (merge : Int) (input : List Char) :
    List (List Char) × Option SrcErr :=
  sourceLoop fails merge (input.length + 1) input

/-- The whole of `Source` (source.go lines 52-173) at the level of the
statements handed to `Exec`: extract the database name, execute `USE`,
disable autocommit, run the statement loop, commit, re-enable autocommit.
Any failing `Exec` returns immediately.  Result: the statements attempted,
in order, and the aborting error if any. -/
def sourceRun (fails : List Char → Bool) (dns : List Char) (merge : Int)
    (input : List Char) : List (List Char) × Option SrcErr :=
  match getDBNameFromDNS dns with
  | none => ([], some .dnsErr)
  | some dbName =>
    let use := strL "USE " ++ dbName ++ [';']
    if fails use then ([use], some (.execErr use))
    else
      let set0 := strL "SET autocommit=0;"
      if fails set0 then ([use, set0], some (.execErr set0))
      else
        let p := sourceBody fails merge input
        match p.2 with
        | some e => (use :: set0 :: p.1, some e)
        | none =>
          let commit := strL "COMMIT;"
          if fails commit then (use :: set0 :: p.1 ++ [commit], some (.execErr commit))
          else
            let set1 := strL "SET autocommit=1;"
            if fails set1 then
              (use :: set0 :: p.1 ++ [commit, set1], some (.execErr set1))
            else (use :: set0 :: p.1 ++ [commit, set1], none)

example :
    sourceRun (fun _ => false) (strL "u@/db?x=1") 0 (strL "A;B;") =
      ([strL "USE db;", strL "SET autocommit=0;", strL "A;", strL "B;",
        strL "COMMIT;", strL "SET autocommit=1;"], none) := by rfl

example :
    sourceRun (fun _ => false) (strL "u@/db?x=1") 2
      (strL "INSERT INTO `t` VALUES (1);INSERT INTO `t` VALUES (2);") =
      ([strL "USE db;", strL "SET autocommit=0;",
        strL "INSERT INTO `t` VALUES (1), (2);",
        strL "COMMIT;", strL "SET autocommit=1;"], none) := by rfl

/-- A calendar timestamp as `time.Time` carries it for this development. -/
structure GoTime where
  year : Nat
  month : Nat
  day : Nat
  hour : Nat
  minute : Nat
  second : Nat
deriving DecidableEq

/-- A scanned cell value as the MySQL driver hands it to `buildRowData`:
`nil`, `[]byte`, `int64`, `float64` (carried by its `%f` rendering),
`time.Time`, `bool` or `string`. -/
inductive GoValue where
  | vNull
  | vBytes (bs : List UInt8)
  | vInt (n : Int)
  | vFloat (rendered : List Char)
  | vTime (t : GoTime)
  | vBool (b : Bool)
  | vString (s : List Char)
deriving DecidableEq

/-- Decimal digits of a natural number. -/
def natChars (n : Nat) : List Char := (Nat.repr n).toList

/-- Left-pad a numeral with zeros to width `w`. -/
def padZero (w : Nat) (n : Nat) : List Char :=
  let d := natChars n
  List.replicate (w - d.length) '0' ++ d

/-- Go `t.Format("2006-01-02")`. -/
def goFormatDate (t : GoTime) : List Char :=
  padZero 4 t.year ++ ['-'] ++ padZero 2 t.month ++ ['-'] ++ padZero 2 t.day

/-- Go `t.Format("2006-01-02 15:04:05")`. -/
def goFormatDateTime (t : GoTime) : List Char :=
  goFormatDate t ++ [' '] ++ padZero 2 t.hour ++ [':'] ++ padZero 2 t.minute ++
    [':'] ++ padZero 2 t.second

/-- Go `string(bs)` for a byte slice, one character per byte. -/
def bytesChars (bs : List UInt8) : List Char :=
  bs.map (fun b => Char.ofNat b.toNat)

/-- Decimal digits of a Go integer (`%d`). -/
def intChars (n : Int) : List Char := (Int.repr n).toList

/-- Go `fmt.Sprintf("%s", v)`: byte slices and strings verbatim; other kinds
never reach a `%s` verb on the paths proved about (the `%!s` forms mirror
fmt's bad-verb output shape). -/
def goSprintfS : GoValue → List Char
  | .vBytes bs => bytesChars bs
  | .vString s => s
  | .vNull => strL "%!s(<nil>)"
  | .vInt n => strL "%!s(int64=" ++ intChars n ++ [')']
  | .vFloat r => strL "%!s(float64=" ++ r ++ [')']
  | .vTime t => goFormatDateTime t ++ strL " +0000 UTC"
  | .vBool b => strL "%!s(bool=" ++ (if b then strL "true" else strL "false") ++ [')']

/-- Go `fmt.Sprintf("%d", v)` as used in the integer branch (the driver value
there that is not `[]byte` is `int64`). -/
def goSprintfD : GoValue → List Char
  | .vInt n => intChars n
  | v => strL "%!d(" ++ goSprintfS v ++ [')']

/-- Go `fmt.Sprintf("%f", v)` as used in the float branch: the `float64`
value carries its fixed-point rendering. -/
def goSprintfF : GoValue → List Char
  | .vFloat r => r
  | v => strL "%!f(" ++ goSprintfS v ++ [')']

/-- One hexadecimal digit, uppercase. -/
def hexDigit (n : Nat) : Char :=
  if n < 10 then Char.ofNat (48 + n) else Char.ofNat (55 + n)

/-- The two uppercase hex digits of one byte. -/
def byteHex (b : UInt8) : List Char :=
  [hexDigit (b.toNat / 16), hexDigit (b.toNat % 16)]

/-- Go `fmt.Sprintf("%X", bs)` for a byte slice. -/
def bytesHex (bs : List UInt8) : List Char := (bs.map byteHex).flatten

/-- Go `fmt.Sprintf("%X", v)` as used in the binary branch. -/
def goSprintfX : GoValue → List Char
  | .vBytes bs => bytesHex bs
  | v => strL "%!X(" ++ goSprintfS v ++ [')']

/-- The fuelled worker for `goReplaceAll`; the fuel is the string length, and
each step consumes at least one character. -/
def goReplaceAllAux (pat rep : List Char) : Nat → List Char → List Char
  | 0, s => s
  | fuel + 1, s =>
    match s with
    | [] => []
    | c :: rest =>
      if pat ≠ [] ∧ List.isPrefixOf pat (c :: rest) then
        rep ++ goReplaceAllAux pat rep fuel ((c :: rest).drop pat.length)
      else c :: goReplaceAllAux pat rep fuel rest

/-- Go `strings.Replace(s, pat, rep, -1)`: replace every occurrence, scanning
left to right. -/
def goReplaceAll (s pat rep : List Char) : List Char :=
  goReplaceAllAux pat rep s.length s

example : goReplaceAll (strL "INT UNSIGNED") (strL "UNSIGNED") [] = strL "INT " := by rfl
example : goReplaceAll (strL "INT ") (strL " ") [] = strL "INT" := by rfl

/-- The column type as the switch of `buildRowData` sees it (mysqldump.go
lines 486-489): the catalog name with `UNSIGNED` and spaces removed. -/
def processType (ty : List Char) : List Char :=
  goReplaceAll (goReplaceAll ty (strL "UNSIGNED") []) (strL " ") []

/-- The single-character replacements of the `strings.NewReplacer` at
mysqldump.go line 537. -/
def escapeChar (c : Char) : List Char :=
  if c = '\n' then ['\\', 'n']
  else if c = '\'' then ['\\', '\'']
  else if c = '\r' then ['\\', 'r']
  else if c = '"' then ['\\', '"']
  else [c]

/-- The `strings.NewReplacer("\n","\\n", "'","\\'", "\r","\\r", "\"","\\\"")`
of the character/text branch: all patterns are single characters, so the
replacement is character-wise. -/
def escapeText (s : List Char) : List Char := (s.map escapeChar).flatten

/-- The escape sequence table of the dialect's text literals: the character
denoted by a backslash followed by `c`, when the spec lists one. -/
def escSeq (c : Char) : Option Char :=
  if c = 'n' then some '\n'
  else if c = 'r' then some '\r'
  else if c = '\'' then some '\''
  else if c = '"' then some '"'
  else none

/-- Unescaping a text literal body under the spec's stated rules: `\n`, `\r`,
`\'` and `\"` denote their characters; everything else stands for itself. -/
def unescapeText : List Char → List Char
  | [] => []
  | [c] => [c]
  | c1 :: c2 :: rest =>
    if c1 = '\\' then
      match escSeq c2 with
      | some d => d :: unescapeText rest
      | none => c1 :: unescapeText (c2 :: rest)
    else c1 :: unescapeText (c2 :: rest)

/-- Case lists of the type switch (mysqldump.go lines 490-555). -/
def intTypes : List (List Char) :=
  [strL "TINYINT", strL "SMALLINT", strL "MEDIUMINT", strL "INT",
   strL "INTEGER", strL "BIGINT"]

def floatTypes : List (List Char) := [strL "FLOAT", strL "DOUBLE"]

def decTypes : List (List Char) := [strL "DECIMAL", strL "DEC"]

def charTypes : List (List Char) :=
  [strL "CHAR", strL "VARCHAR", strL "TINYTEXT", strL "TEXT",
   strL "MEDIUMTEXT", strL "LONGTEXT"]

def binTypes : List (List Char) :=
  [strL "BIT", strL "BINARY", strL "VARBINARY", strL "TINYBLOB",
   strL "BLOB", strL "MEDIUMBLOB", strL "LONGBLOB"]

def enumTypes : List (List Char) := [strL "ENUM", strL "SET"]

def boolTypes : List (List Char) := [strL "BOOL", strL "BOOLEAN"]

/-- Every case label of the switch, in source order. -/
def supportedTypes : List (List Char) :=
  intTypes ++ floatTypes ++ decTypes ++
  [strL "DATE", strL "DATETIME", strL "TIMESTAMP", strL "TIME", strL "YEAR"] ++
  charTypes ++ binTypes ++ enumTypes ++ boolTypes ++ [strL "JSON"]

/-- Outcome of the loop body of `buildRowData` for one cell. -/
inductive CellOut where
  | text (s : List Char)
  | abort (e : Option (List Char))
  | panicked
deriving DecidableEq

/-- The type switch of `buildRowData` (mysqldump.go lines 490-555) for a
non-null cell, over the already-processed type name `t`.  `.abort none`
models `return "", err` with the named `err` still nil (the date/time/year
type-assertion misses); `.abort (some e)` models `return "", fmt.Errorf(...)`;
`.panicked` models the unchecked `col.(bool)` assertion. -/
def buildCellVal (col : GoValue) (t : List Char) : CellOut :=
  if t ∈ intTypes then
    match col with
    | .vBytes bs => .text (bytesChars bs)
    | _ => .text (goSprintfD col)
  else if t ∈ floatTypes then
    match col with
    | .vBytes bs => .text (bytesChars bs)
    | _ => .text (goSprintfF col)
  else if t ∈ decTypes then .text (goSprintfS col)
  else if t = strL "DATE" then
    match col with
    | .vTime tm => .text ('\'' :: goFormatDate tm ++ ['\''])
    | _ => .abort none
  else if t = strL "DATETIME" then
    match col with
    | .vTime tm => .text ('\'' :: goFormatDateTime tm ++ ['\''])
    | _ => .abort none
  else if t = strL "TIMESTAMP" then
    match col with
    | .vTime tm => .text ('\'' :: goFormatDateTime tm ++ ['\''])
    | _ => .abort none
  else if t = strL "TIME" then
    match col with
    | .vBytes bs => .text ('\'' :: bytesChars bs ++ ['\''])
    | _ => .abort none
  else if t = strL "YEAR" then
    match col with
    | .vBytes bs => .text (bytesChars bs)
    | _ => .abort none
  else if t ∈ charTypes then .text ('\'' :: escapeText (goSprintfS col) ++ ['\''])
  else if t ∈ binTypes then .text (strL "0x" ++ goSprintfX col)
  else if t ∈ enumTypes then .text ('\'' :: goSprintfS col ++ ['\''])
  else if t ∈ boolTypes then
    match col with
    | .vBool b => .text (if b then strL "true" else strL "false")
    | _ => .panicked
  else if t = strL "JSON" then .text ('\'' :: goSprintfS col ++ ['\''])
  else .abort (some (strL "unsupported type: " ++ t))

/-- The loop body of `buildRowData` for one cell (mysqldump.go lines 482-555):
a nil cell renders as `NULL` before the type name is even examined. -/
def buildCellOut (col : GoValue) (ty : List Char) : CellOut :=
  match col with
  | .vNull => .text (strL "NULL")
  | _ => buildCellVal col (processType ty)

/-- The cell loop of `buildRowData`: accumulate the literals joined by commas;
an abort or panic at any cell ends the whole function. -/
def buildRowAux : List (GoValue × List Char) → CellOut
  | [] => .text []
  | (col, ty) :: rest =>
    match buildCellOut col ty with
    | .abort e => .abort e
    | .panicked => .panicked
    | .text s =>
      match buildRowAux rest with
      | .abort e => .abort e
      | .panicked => .panicked
      | .text t => .text (s ++ (if rest.isEmpty then [] else [',']) ++ t)

/-- Go `buildRowData(row, columnTypes)` (mysqldump.go lines 480-562), for a
row and its column type names (the caller always passes lists of one common
length): `some (text, err)` is the Go return pair, `none` a panic. -/
def buildRowData (row : List GoValue) (types : List (List Char)) :
    Option (List Char × Option (List Char)) :=
  match buildRowAux (row.zip types) with
  | .text s => some (s, none)
  | .abort e => some ([], e)
  | .panicked => none

example : buildRowData [.vInt (-128), .vNull, .vString (strL "a'b")]
    [strL "INT", strL "TEXT", strL "VARCHAR"] =
    some (strL "-128,NULL,'a\\'b'", none) := by rfl
example : buildRowData [.vBytes [97, 98, 99]] [strL "BLOB"] =
    some (strL "0x616263", none) := by rfl
example : buildRowData [.vString (strL "x")] [strL "GEOMETRY"] =
    some ([], some (strL "unsupported type: GEOMETRY")) := by rfl
example : buildRowData [.vString (strL "2024-01-02")] [strL "DATE"] =
    some ([], none) := by rfl

/-! ### Helper lemmas -/

lemma readString_no_delim : ∀ (s : List Char), ';' ∉ s → readString s = none
  | [], _ => rfl
  | c :: rest, h => by
    have hc : ¬ c = ';' := by rintro rfl; exact h (List.mem_cons_self _ _)
    have hr : ';' ∉ rest := fun m => h (List.mem_cons_of_mem _ m)
    simp [readString, hc, readString_no_delim rest hr]

lemma readString_append : ∀ (s t : List Char), ';' ∉ s →
    readString (s ++ ';' :: t) = some (s ++ [';'], t)
  | [], t, _ => by simp [readString]
  | c :: rest, t, h => by
    have hc : ¬ c = ';' := by rintro rfl; exact h (List.mem_cons_self _ _)
    have hr : ';' ∉ rest := fun m => h (List.mem_cons_of_mem _ m)
    simp [readString, hc, readString_append rest t hr]

lemma readString_length : ∀ (input chunk rest : List Char),
    readString input = some (chunk, rest) → rest.length < input.length
  | [], _, _, h => by simp [readString] at h
  | c :: tl, chunk, rest, h => by
    by_cases hc : c = ';'
    · simp [readString, hc] at h
      simp [← h.2]
    · rcases e : readString tl with _ | ⟨ch, r⟩
      · simp [readString, hc, e] at h
      · simp [readString, hc, e] at h
        have := readString_length tl ch r e
        simp [← h.2]
        omega

lemma splitStatements_congr : ∀ (f1 : Nat) (input : List Char) (f2 : Nat),
    input.length < f1 → input.length < f2 →
    splitStatements f1 input = splitStatements f2 input
  | 0, _, _, h1, _ => absurd h1 (Nat.not_lt_zero _)
  | _ + 1, _, 0, _, h2 => absurd h2 (Nat.not_lt_zero _)
  | f1 + 1, input, f2 + 1, h1, h2 => by
    rcases e : readString input with _ | ⟨line, rest⟩
    · simp [splitStatements, e]
    · have hl := readString_length input line rest e
      simp [splitStatements, e,
            splitStatements_congr f1 rest f2 (by omega) (by omega)]

lemma splitStatements_step (fuel : Nat) (input : List Char) :
    splitStatements (fuel + 1) input =
      match readString input with
      | none => []
      | some (line, rest) => trim line :: splitStatements fuel rest := rfl

lemma strIndex_isPrefix : ∀ (s pat : List Char) (k : Nat),
    strIndex s pat = some k → List.isPrefixOf pat (s.drop k) = true
  | [], pat, k, h => by
    by_cases hp : pat = [] <;> simp [strIndex, hp] at h
    simp [hp, ← h]
  | c :: rest, pat, k, h => by
    by_cases hp : List.isPrefixOf pat (c :: rest)
    · simp [strIndex, hp] at h
      simp [← h, hp]
    · simp [strIndex, hp] at h
      obtain ⟨k', e, rfl⟩ := h
      simpa using strIndex_isPrefix rest pat k' e

/-! ### Claim theorems -/

/-- C8: for every column type T, encoding a null cell value yields the
unquoted literal `NULL`, regardless of T. -/
theorem null_literal_spec (ty : List Char) :
    buildCellOut .vNull ty = .text (strL "NULL") ∧
    buildRowData [.vNull] [ty] = some (strL "NULL", none) :=
  ⟨rfl, rfl⟩

/-- C3 counterexample: splitting the stream `A;B;` keeps the delimiter in each
statement, so the result is `["A;", "B;"]` and not the claimed `["A", "B"]`;
likewise `A;B` splits into `["A;"]`, not `["A"]`. -/
theorem split_scenario_cex :
    splitStmts (strL "A;B;") = [strL "A;", strL "B;"] ∧
    splitStmts (strL "A;B;") ≠ [strL "A", strL "B"] ∧
    splitStmts (strL "A;B") = [strL "A;"] ∧
    splitStmts (strL "A;B") ≠ [strL "A"] := by
  refine ⟨rfl, ?_, rfl, ?_⟩ <;> decide

/-- C3 amended: each statement is the chunk up to and **including** the
delimiter, trimmed of leading newlines and surrounding whitespace (the
delimiter itself is kept); a trailing fragment with no delimiter is
dropped. -/
theorem split_statements_spec (s t : List Char) (h : ';' ∉ s) :
    splitStmts (s ++ ';' :: t) = trim (s ++ [';']) :: splitStmts t ∧
    splitStmts s = [] := by
  constructor
  · show splitStatements ((s ++ ';' :: t).length + 1) (s ++ ';' :: t) = _
    simp only [splitStatements_step, readString_append s t h]
    congr 1
    rw [splitStatements_congr ((s ++ ';' :: t).length) t (t.length + 1)
        (by simp; omega) (by omega)]
    rfl
  · show splitStatements (s.length + 1) s = _
    simp only [splitStatements_step, readString_no_delim s h]

/-- C3 amended, instantiated on the scenario stream `A;B`. -/
theorem split_statements_spec_witness :
    (';' ∉ strL "A") ∧
    (splitStmts (strL "A" ++ ';' :: strL "B;") =
        trim (strL "A" ++ [';']) :: splitStmts (strL "B;") ∧
      splitStmts (strL "A") = []) :=
  ⟨by decide, split_statements_spec (strL "A") (strL "B;") (by decide)⟩

lemma mergeInsertLoop_missing : ∀ (n : Nat) (list : List (List Char)) (i : Nat),
    (∃ s ∈ list, strIndex s valuesKW = none) →
    mergeInsertLoop n list i = .error (strL "invalid SQL: missing VALUES keyword")
  | _, [], _, h => by simp at h
  | n, s :: rest, i, h => by
    rcases e : strIndex s valuesKW with _ | k
    · simp [mergeInsertLoop, e]
    · obtain ⟨u, hu, hnone⟩ := h
      rcases List.mem_cons.mp hu with rfl | hu
      · rw [e] at hnone
        exact absurd hnone (by simp)
      · have ih := mergeInsertLoop_missing n rest (i + 1) ⟨u, hu, hnone⟩
        simp [mergeInsertLoop, e, ih]

/-- C5 counterexample: the first statement of a batch is never checked for
the `VALUES` keyword — a batch whose first candidate lacks `VALUES` merges
without error. -/
theorem mergeInsert_first_unchecked_cex :
    strIndex (strL "INSERT INTO `t` (1,'a');") valuesKW = none ∧
    mergeInsert [strL "INSERT INTO `t` (1,'a');", strL "INSERT INTO `u` VALUES (2);"] =
      .ok (strL "INSERT INTO `t` (1,'a'), (2);") := by
  exact ⟨by decide, by rfl⟩

/-- C5 amended: empty input fails with the EmptyBatch error, and a batch in
which any statement **after the first** lacks the `VALUES` keyword fails
with the MalformedStatement error (the first statement is not checked). -/
theorem mergeInsert_errors_spec :
    mergeInsert [] = .error (strL "no input provided") ∧
    ∀ (sql1 : List Char) (rest : List (List Char)),
      (∃ s ∈ rest, strIndex s valuesKW = none) →
      mergeInsert (sql1 :: rest) = .error (strL "invalid SQL: missing VALUES keyword") := by
  refine ⟨rfl, fun sql1 rest h => ?_⟩
  have hloop := mergeInsertLoop_missing (sql1 :: rest).length rest 0 h
  simp only [List.length_cons] at hloop
  simp [mergeInsert, hloop]

/-- C5 amended, instantiated: an empty batch and a two-statement batch whose
second statement lacks `VALUES` both fail. -/
theorem mergeInsert_errors_spec_witness :
    (∃ s ∈ [strL "INSERT INTO `t` (3);"], strIndex s valuesKW = none) ∧
    mergeInsert [strL "INSERT INTO `t` VALUES (1);", strL "INSERT INTO `t` (3);"] =
      .error (strL "invalid SQL: missing VALUES keyword") :=
  ⟨by decide,
   mergeInsert_errors_spec.2 (strL "INSERT INTO `t` VALUES (1);")
     [strL "INSERT INTO `t` (3);"] (by decide)⟩

/-- Spec-side reading of claim C2: a statement's text after its first
`VALUES` keyword, with one trailing terminator removed. -/
def afterValues (s : List Char) : List Char :=
  match strIndex s valuesKW with
  | none => []
  | some k => dropSuffixIf (s.drop (k + valuesKW.length)) (strL ";")

lemma mergeInsertLoop_ok : ∀ (n : Nat) (list : List (List Char)) (i : Nat),
    (∀ s ∈ list, strIndex s valuesKW ≠ none) → i + list.length ≤ n - 1 →
    mergeInsertLoop n list i = .ok ((list.map (fun s => ',' :: afterValues s)).flatten)
  | _, [], _, _, _ => by simp [mergeInsertLoop]
  | n, s :: rest, i, hall, hlen => by
    rcases e : strIndex s valuesKW with _ | k
    · exact absurd e (hall s (List.mem_cons_self _ _))
    · have hpre := strIndex_isPrefix s valuesKW k e
      have hcomma : i < n - 1 := by
        simp only [List.length_cons] at hlen; omega
      have ih := mergeInsertLoop_ok n rest (i + 1)
        (fun u hu => hall u (List.mem_cons_of_mem _ hu))
        (by simp only [List.length_cons] at hlen ⊢; omega)
      simp only [mergeInsertLoop, e, ih, if_pos hcomma]
      simp [afterValues, e, dropPrefixIf, hpre, List.drop_drop, Nat.add_comm]

/-- C2: merging a non-empty batch in which every statement contains the
`VALUES` keyword yields the first statement with its trailing terminator
removed, then, for each subsequent statement in order, a comma followed by
that statement's text after `VALUES` with its trailing terminator removed,
then one final terminator. -/
theorem mergeInsert_spec (sql1 : List Char) (rest : List (List Char))
    (h : ∀ s ∈ sql1 :: rest, strIndex s valuesKW ≠ none) :
    mergeInsert (sql1 :: rest) =
      .ok (dropSuffixIf sql1 (strL ";") ++
        (rest.map (fun s => ',' :: afterValues s)).flatten ++ [';']) := by
  have hloop := mergeInsertLoop_ok (sql1 :: rest).length rest 0
    (fun s hs => h s (List.mem_cons_of_mem _ hs))
    (by simp only [List.length_cons]; omega)
  simp only [List.length_cons] at hloop
  simp [mergeInsert, hloop]

/-- C2, instantiated on the two-statement scenario of the spec. -/
theorem mergeInsert_spec_witness :
    (∀ s ∈ [strL "INSERT INTO `t` VALUES (1,'a');",
            strL "INSERT INTO `t` VALUES (2,'b');"],
        strIndex s valuesKW ≠ none) ∧
    mergeInsert [strL "INSERT INTO `t` VALUES (1,'a');",
                 strL "INSERT INTO `t` VALUES (2,'b');"] =
      .ok (strL "INSERT INTO `t` VALUES (1,'a'), (2,'b');") := by
  constructor
  · decide
  · rw [mergeInsert_spec (strL "INSERT INTO `t` VALUES (1,'a');")
        [strL "INSERT INTO `t` VALUES (2,'b');"] (by decide)]
    rfl

/-! ### C1: character/text escaping -/

lemma unescape_cons_of_ne (c : Char) (h : ¬ c = '\\') :
    ∀ (l : List Char), unescapeText (c :: l) = c :: unescapeText l
  | [] => rfl
  | _ :: _ => by simp [unescapeText, h]

lemma unescape_escape : ∀ (s : List Char), '\\' ∉ s →
    unescapeText (escapeText s) = s
  | [], _ => rfl
  | c :: s', h => by
    have hs' : '\\' ∉ s' := fun m => h (List.mem_cons_of_mem _ m)
    have hc : ¬ c = '\\' := by rintro rfl; exact h (List.mem_cons_self _ _)
    have ih := unescape_escape s' hs'
    by_cases h1 : c = '\n'
    · subst h1
      show unescapeText ('\\' :: 'n' :: escapeText s') = _
      rw [show ∀ l, unescapeText ('\\' :: 'n' :: l) = '\n' :: unescapeText l
            from fun l => rfl, ih]
    · by_cases h2 : c = '\''
      · subst h2
        show unescapeText ('\\' :: '\'' :: escapeText s') = _
        rw [show ∀ l, unescapeText ('\\' :: '\'' :: l) = '\'' :: unescapeText l
              from fun l => rfl, ih]
      · by_cases h3 : c = '\r'
        · subst h3
          show unescapeText ('\\' :: 'r' :: escapeText s') = _
          rw [show ∀ l, unescapeText ('\\' :: 'r' :: l) = '\r' :: unescapeText l
                from fun l => rfl, ih]
        · by_cases h4 : c = '"'
          · subst h4
            show unescapeText ('\\' :: '"' :: escapeText s') = _
            rw [show ∀ l, unescapeText ('\\' :: '"' :: l) = '"' :: unescapeText l
                  from fun l => rfl, ih]
          · have he : escapeChar c = [c] := by simp [escapeChar, h1, h2, h3, h4]
            show unescapeText (escapeChar c ++ escapeText s') = _
            rw [he, List.singleton_append, unescape_cons_of_ne c hc, ih]

lemma buildCellOut_ne_null (col : GoValue) (ty : List Char) (h : col ≠ .vNull) :
    buildCellOut col ty = buildCellVal col (processType ty) := by
  cases col <;> first | exact absurd rfl h | rfl

lemma buildCellVal_charType (t : List Char) (ht : t ∈ charTypes) (col : GoValue) :
    buildCellVal col t = .text ('\'' :: escapeText (goSprintfS col) ++ ['\'']) := by
  simp only [charTypes] at ht
  fin_cases ht <;> rfl

/-- C1 counterexample: for the text value consisting of a backslash followed
by `n`, the encoder leaves both characters unaltered, so the escaped body is
indistinguishable from the escape of a newline and unescaping it does not
return the original string — the round-trip law fails on strings containing
backslashes. -/
theorem escape_roundtrip_cex :
    buildCellOut (.vString ['\\', 'n']) (strL "TEXT") = .text (strL "'\\n'") ∧
    unescapeText (escapeText ['\\', 'n']) ≠ ['\\', 'n'] :=
  ⟨rfl, by decide⟩

/-- C1 amended: for a character/text-family column the encoder produces `s`
surrounded by single quotes with exactly newline, carriage return, single
quote and double quote replaced by their backslash escapes and every other
character unaltered; for every text value containing no backslash,
unescaping that body under the same rules returns exactly `s`. -/
theorem text_escape_spec (s ty : List Char) (hty : processType ty ∈ charTypes) :
    buildCellOut (.vString s) ty = .text ('\'' :: escapeText s ++ ['\'']) ∧
    (∀ c, ¬ c = '\n' → ¬ c = '\r' → ¬ c = '\'' → ¬ c = '"' → escapeChar c = [c]) ∧
    escapeChar '\n' = ['\\', 'n'] ∧ escapeChar '\r' = ['\\', 'r'] ∧
    escapeChar '\'' = ['\\', '\''] ∧ escapeChar '"' = ['\\', '"'] ∧
    ('\\' ∉ s → unescapeText (escapeText s) = s) := by
  refine ⟨?_, ?_, rfl, rfl, rfl, rfl, unescape_escape s⟩
  · rw [buildCellOut_ne_null (.vString s) ty (fun h => GoValue.noConfusion h),
        buildCellVal_charType _ hty]
    rfl
  · intro c h1 h2 h3 h4
    simp [escapeChar, h1, h2, h3, h4]

/-- C1 amended, instantiated on a TEXT value containing a newline and a
quote. -/
theorem text_escape_spec_witness :
    (processType (strL "TEXT") ∈ charTypes) ∧ ('\\' ∉ strL "a\n'b") ∧
    buildCellOut (.vString (strL "a\n'b")) (strL "TEXT") = .text (strL "'a\\n\\'b'") ∧
    unescapeText (escapeText (strL "a\n'b")) = strL "a\n'b" := by
  have h := text_escape_spec (strL "a\n'b") (strL "TEXT") (by decide)
  exact ⟨by decide, by decide, by rw [h.1]; rfl, h.2.2.2.2.2.2 (by decide)⟩

/-! ### C7: binary/blob hex encoding -/

/-- Value of one hexadecimal digit character, spec-side. -/
def hexVal (c : Char) : Option Nat :=
  if '0' ≤ c ∧ c ≤ '9' then some (c.toNat - 48)
  else if 'A' ≤ c ∧ c ≤ 'F' then some (c.toNat - 55)
  else if 'a' ≤ c ∧ c ≤ 'f' then some (c.toNat - 87)
  else none

/-- Decoding the body of a hex literal, two digits per byte, spec-side. -/
def decodeHex : List Char → Option (List UInt8)
  | [] => some []
  | [_] => none
  | c1 :: c2 :: rest =>
    match hexVal c1, hexVal c2, decodeHex rest with
    | some h, some l, some bs => some (UInt8.ofNat (16 * h + l) :: bs)
    | _, _, _ => none

lemma hexVal_hexDigit : ∀ n : Fin 16, hexVal (hexDigit n.val) = some n.val := by decide

lemma UInt8.ofNat_toNat' (b : UInt8) : UInt8.ofNat b.toNat = b := by
  apply UInt8.ext
  rw [show (UInt8.ofNat b.toNat).toNat = b.toNat % UInt8.size from rfl]
  exact Nat.mod_eq_of_lt b.toNat_lt

lemma decodeHex_bytesHex : ∀ bs : List UInt8, decodeHex (bytesHex bs) = some bs
  | [] => rfl
  | b :: bs => by
    have hlt : b.toNat < 256 := b.toNat_lt
    have h1 : hexVal (hexDigit (b.toNat / 16)) = some (b.toNat / 16) :=
      hexVal_hexDigit ⟨b.toNat / 16, by omega⟩
    have h2 : hexVal (hexDigit (b.toNat % 16)) = some (b.toNat % 16) :=
      hexVal_hexDigit ⟨b.toNat % 16, by omega⟩
    have ih := decodeHex_bytesHex bs
    show decodeHex (hexDigit (b.toNat / 16) :: hexDigit (b.toNat % 16) :: bytesHex bs) =
      some (b :: bs)
    simp only [decodeHex, h1, h2, ih]
    rw [show 16 * (b.toNat / 16) + b.toNat % 16 = b.toNat by omega,
        UInt8.ofNat_toNat' b]

lemma buildCellVal_binType (t : List Char) (ht : t ∈ binTypes) (col : GoValue) :
    buildCellVal col t = .text (strL "0x" ++ goSprintfX col) := by
  simp only [binTypes] at ht
  fin_cases ht <;> rfl

/-- C7: every binary/blob-family byte sequence is encoded as the unquoted
literal `0x` followed by its uppercase hex digits, and decoding those digits
yields exactly the original bytes. -/
theorem binary_hex_spec (bs : List UInt8) (ty : List Char)
    (hty : processType ty ∈ binTypes) :
    buildCellOut (.vBytes bs) ty = .text (strL "0x" ++ bytesHex bs) ∧
    decodeHex (bytesHex bs) = some bs := by
  constructor
  · rw [buildCellOut_ne_null (.vBytes bs) ty (fun h => GoValue.noConfusion h),
        buildCellVal_binType _ hty]
    rfl
  · exact decodeHex_bytesHex bs

/-- C7, instantiated on the spec's scenario bytes `0x61 0x62 0x63`. -/
theorem binary_hex_spec_witness :
    (processType (strL "BLOB") ∈ binTypes) ∧
    buildCellOut (.vBytes [97, 98, 99]) (strL "BLOB") = .text (strL "0x616263") ∧
    decodeHex (bytesHex [97, 98, 99]) = some [97, 98, 99] := by
  have h := binary_hex_spec [97, 98, 99] (strL "BLOB") (by decide)
  exact ⟨by decide, by rw [h.1]; rfl, h.2⟩

/-! ### C6 and C10: abort paths of the row encoder -/

lemma buildRowAux_append_abort :
    ∀ (pre suff : List (GoValue × List Char)),
      (∀ p ∈ pre, ∃ u, buildCellOut p.1 p.2 = CellOut.text u) →
      ∀ (e : Option (List Char)), buildRowAux suff = .abort e →
      buildRowAux (pre ++ suff) = .abort e
  | [], _, _, _, hs => by simpa using hs
  | (col, ty) :: pre, suff, hpre, e, hs => by
    obtain ⟨u, hu⟩ := hpre (col, ty) (List.mem_cons_self _ _)
    have ih := buildRowAux_append_abort pre suff
      (fun p hp => hpre p (List.mem_cons_of_mem _ hp)) e hs
    simp [buildRowAux, hu, ih]

/-- A row whose earlier cells all render aborts with `("", e)` as soon as one
cell's switch takes a `return "", e` branch. -/
lemma buildRowData_abort_at (preR restR : List GoValue)
    (preT restT : List (List Char)) (col : GoValue) (ty : List Char)
    (e : Option (List Char))
    (hlen : preR.length = preT.length)
    (hpre : ∀ p ∈ preR.zip preT, ∃ u, buildCellOut p.1 p.2 = CellOut.text u)
    (hcell : buildCellOut col ty = .abort e) :
    buildRowData (preR ++ col :: restR) (preT ++ ty :: restT) = some ([], e) := by
  have hsuff : buildRowAux ((col, ty) :: restR.zip restT) = .abort e := by
    simp [buildRowAux, hcell]
  unfold buildRowData
  rw [List.zip_append hlen, List.zip_cons_cons,
      buildRowAux_append_abort _ _ hpre e hsuff]

lemma buildCellVal_unsupported (col : GoValue) (t : List Char)
    (h : t ∉ supportedTypes) :
    buildCellVal col t = .abort (some (strL "unsupported type: " ++ t)) := by
  have h1 : ¬ t ∈ intTypes := fun hx =>
    h (by simp only [supportedTypes, List.mem_append]; tauto)
  have h2 : ¬ t ∈ floatTypes := fun hx =>
    h (by simp only [supportedTypes, List.mem_append]; tauto)
  have h3 : ¬ t ∈ decTypes := fun hx =>
    h (by simp only [supportedTypes, List.mem_append]; tauto)
  have h4 : ¬ t = strL "DATE" := fun hx => h (by subst hx; decide)
  have h5 : ¬ t = strL "DATETIME" := fun hx => h (by subst hx; decide)
  have h6 : ¬ t = strL "TIMESTAMP" := fun hx => h (by subst hx; decide)
  have h7 : ¬ t = strL "TIME" := fun hx => h (by subst hx; decide)
  have h8 : ¬ t = strL "YEAR" := fun hx => h (by subst hx; decide)
  have h9 : ¬ t ∈ charTypes := fun hx =>
    h (by simp only [supportedTypes, List.mem_append]; tauto)
  have h10 : ¬ t ∈ binTypes := fun hx =>
    h (by simp only [supportedTypes, List.mem_append]; tauto)
  have h11 : ¬ t ∈ enumTypes := fun hx =>
    h (by simp only [supportedTypes, List.mem_append]; tauto)
  have h12 : ¬ t ∈ boolTypes := fun hx =>
    h (by simp only [supportedTypes, List.mem_append]; tauto)
  have h13 : ¬ t = strL "JSON" := fun hx => h (by subst hx; decide)
  unfold buildCellVal
  rw [if_neg h1, if_neg h2, if_neg h3, if_neg h4, if_neg h5, if_neg h6,
      if_neg h7, if_neg h8, if_neg h9, if_neg h10, if_neg h11, if_neg h12,
      if_neg h13]

/-- C6: a non-null cell whose processed catalog type is outside the
enumerated set makes the whole row encoding fail with an error naming that
type — the cell is never skipped or rendered. -/
theorem unsupported_type_spec (preR restR : List GoValue)
    (preT restT : List (List Char)) (col : GoValue) (ty : List Char)
    (hlen : preR.length = preT.length)
    (hpre : ∀ p ∈ preR.zip preT, ∃ u, buildCellOut p.1 p.2 = CellOut.text u)
    (hnn : col ≠ .vNull)
    (hun : processType ty ∉ supportedTypes) :
    buildRowData (preR ++ col :: restR) (preT ++ ty :: restT) =
      some ([], some (strL "unsupported type: " ++ processType ty)) := by
  apply buildRowData_abort_at _ _ _ _ _ _ _ hlen hpre
  rw [buildCellOut_ne_null col ty hnn]
  exact buildCellVal_unsupported col _ hun

/-- C6, instantiated: a `POINT` cell fails the row with the error naming the
type. -/
theorem unsupported_type_spec_witness :
    (processType (strL "POINT") ∉ supportedTypes) ∧
    ((GoValue.vBytes [1]) ≠ .vNull) ∧
    buildRowData [.vBytes [1]] [strL "POINT"] =
      some ([], some (strL "unsupported type: POINT")) := by
  refine ⟨by decide, by decide, ?_⟩
  show buildRowData ([] ++ [GoValue.vBytes [1]]) ([] ++ [strL "POINT"]) = _
  rw [unsupported_type_spec [] [] [] [] (.vBytes [1]) (strL "POINT") rfl
      (by simp) (by decide) (by decide)]
  rfl

lemma buildCellVal_dateMiss (col : GoValue) (h : ∀ tm, ¬ col = .vTime tm) :
    buildCellVal col (strL "DATE") = .abort none := by
  cases col <;> first | exact absurd rfl (h _) | rfl

lemma buildCellVal_datetimeMiss (col : GoValue) (h : ∀ tm, ¬ col = .vTime tm) :
    buildCellVal col (strL "DATETIME") = .abort none := by
  cases col <;> first | exact absurd rfl (h _) | rfl

lemma buildCellVal_timestampMiss (col : GoValue) (h : ∀ tm, ¬ col = .vTime tm) :
    buildCellVal col (strL "TIMESTAMP") = .abort none := by
  cases col <;> first | exact absurd rfl (h _) | rfl

lemma buildCellVal_timeMiss (col : GoValue) (h : ∀ bs, ¬ col = .vBytes bs) :
    buildCellVal col (strL "TIME") = .abort none := by
  cases col <;> first | exact absurd rfl (h _) | rfl

lemma buildCellVal_yearMiss (col : GoValue) (h : ∀ bs, ¬ col = .vBytes bs) :
    buildCellVal col (strL "YEAR") = .abort none := by
  cases col <;> first | exact absurd rfl (h _) | rfl

/-- C10: a non-null DATE/DATETIME/TIMESTAMP cell whose runtime value is not a
`time.Time`, or a non-null TIME/YEAR cell whose runtime value is not a byte
slice, makes `buildRowData` return the empty string with a nil error — the
caller observes success with empty row text. -/
theorem date_mismatch_spec (preR restR : List GoValue)
    (preT restT : List (List Char)) (col : GoValue) (ty : List Char)
    (hlen : preR.length = preT.length)
    (hpre : ∀ p ∈ preR.zip preT, ∃ u, buildCellOut p.1 p.2 = CellOut.text u)
    (hnn : col ≠ .vNull)
    (hmis : (processType ty ∈ [strL "DATE", strL "DATETIME", strL "TIMESTAMP"] ∧
              ∀ tm, ¬ col = .vTime tm) ∨
            (processType ty ∈ [strL "TIME", strL "YEAR"] ∧
              ∀ bs, ¬ col = .vBytes bs)) :
    buildRowData (preR ++ col :: restR) (preT ++ ty :: restT) = some ([], none) := by
  apply buildRowData_abort_at _ _ _ _ _ _ _ hlen hpre
  rw [buildCellOut_ne_null col ty hnn]
  rcases hmis with ⟨hty, hcol⟩ | ⟨hty, hcol⟩
  · simp only [List.mem_cons, List.mem_singleton, List.not_mem_nil, or_false] at hty
    rcases hty with h | h | h <;> rw [h]
    · exact buildCellVal_dateMiss col hcol
    · exact buildCellVal_datetimeMiss col hcol
    · exact buildCellVal_timestampMiss col hcol
  · simp only [List.mem_cons, List.mem_singleton, List.not_mem_nil, or_false] at hty
    rcases hty with h | h <;> rw [h]
    · exact buildCellVal_timeMiss col hcol
    · exact buildCellVal_yearMiss col hcol

/-- C10, instantiated: a DATE cell scanned as a string (as the driver
delivers without time parsing) yields `("", nil)`. -/
theorem date_mismatch_spec_witness :
    ((GoValue.vString (strL "2024-01-02")) ≠ .vNull) ∧
    buildRowData [.vString (strL "2024-01-02")] [strL "DATE"] = some ([], none) :=
  ⟨by decide,
   date_mismatch_spec [] [] [] [] (.vString (strL "2024-01-02")) (strL "DATE")
     rfl (by simp) (by decide)
     (Or.inl ⟨by decide, fun tm h => GoValue.noConfusion h⟩)⟩

/-! ### C9: merge size at most one is a passthrough -/

lemma sourceLoop_no_merge (merge : Int) (hm : merge ≤ 1) :
    ∀ (fuel : Nat) (input : List Char),
      sourceLoop (fun _ => false) merge fuel input = (splitStatements fuel input, none)
  | 0, _ => rfl
  | fuel + 1, input => by
    rcases e : readString input with _ | ⟨line, rest⟩
    · simp [sourceLoop, splitStatements, e]
    · have hcond : ¬ (merge > 1 ∧ (List.isPrefixOf (strL "INSERT INTO") (trim line)) = true) :=
        fun hx => absurd hx.1 (by omega)
      have ih := sourceLoop_no_merge merge hm fuel rest
      simp [sourceLoop, splitStatements, e, hcond, ih]
      exact fun h1 _ => absurd h1 (by omega)

/-- C9: with merge size N ≤ 1 the merge routine is never invoked: the replay
loop hands on exactly the statements the splitter produces, with no error. -/
theorem merge_le_one_spec (merge : Int) (hm : merge ≤ 1) (input : List Char) :
    sourceBody (fun _ => false) merge input = (splitStmts input, none) :=
  sourceLoop_no_merge merge hm (input.length + 1) input

/-- C9, instantiated at merge size 1 on a stream holding an INSERT. -/
theorem merge_le_one_spec_witness :
    ((1 : Int) ≤ 1) ∧
    sourceBody (fun _ => false) 1 (strL "INSERT INTO `t` VALUES (1);A;") =
      (splitStmts (strL "INSERT INTO `t` VALUES (1);A;"), none) :=
  ⟨by decide, merge_le_one_spec 1 (by decide) _⟩

/-! ### C4: replay protocol order and abort behaviour -/

lemma prefix_append_mono {l a b : List (List Char)} (h : a <+: b) :
    l ++ a <+: l ++ b := by
  induction l with
  | nil => simpa
  | cons x l ih => simpa [List.cons_prefix_cons] using ih

lemma getLast?_cons_some {a s : List Char} {l : List (List Char)}
    (h : l.getLast? = some s) : (a :: l).getLast? = some s := by
  cases l with
  | nil => simp at h
  | cons b t => rw [show (a :: b :: t).getLast? = (b :: t).getLast? from rfl]; exact h

lemma sourceLoop_fails_spec (fails : List Char → Bool) (merge : Int) :
    ∀ (fuel : Nat) (input : List Char),
      (sourceLoop fails merge fuel input).1 <+:
          (sourceLoop (fun _ => false) merge fuel input).1 ∧
      ((sourceLoop fails merge fuel input).2 = none →
        sourceLoop fails merge fuel input =
          sourceLoop (fun _ => false) merge fuel input) ∧
      (∀ er, (sourceLoop fails merge fuel input).2 = some er →
        (∃ s, er = .execErr s ∧ fails s = true ∧
            (sourceLoop fails merge fuel input).1.getLast? = some s) ∨
        (sourceLoop (fun _ => false) merge fuel input).2 = some er)
  | 0, _ => by simp [sourceLoop]
  | fuel + 1, input => by
    rcases e : readString input with _ | ⟨line, rest⟩
    · simp [sourceLoop, e]
    · simp only [sourceLoop, e]
      by_cases hcond : merge > 1 ∧ (List.isPrefixOf (strL "INSERT INTO") (trim line)) = true
      · simp only [if_pos hcond]
        generalize collectInserts (merge - 1).toNat rest = P
        rcases em : mergeInsert (trim line :: P.1) with e' | m <;> simp only [em]
        · simp
        · have ih := sourceLoop_fails_spec fails merge fuel P.2
          by_cases hf : fails m = true
          · rw [if_pos hf, if_neg (show ¬ (false = true) by simp)]
            refine ⟨?_, ?_, ?_⟩
            · exact List.cons_prefix_cons.mpr ⟨rfl, List.nil_prefix⟩
            · intro h
              exact absurd (show some (SrcErr.execErr m) = none from h) (by simp)
            · intro er her
              have her' : SrcErr.execErr m = er := Option.some_inj.mp her
              subst her'
              exact Or.inl ⟨m, rfl, hf, rfl⟩
          · rw [if_neg hf, if_neg (show ¬ (false = true) by simp)]
            refine ⟨?_, ?_, ?_⟩
            · exact List.cons_prefix_cons.mpr ⟨rfl, ih.1⟩
            · intro h
              rw [show sourceLoop fails merge fuel P.2 =
                    sourceLoop (fun _ => false) merge fuel P.2 from ih.2.1 h]
            · intro er her
              rcases ih.2.2 er her with ⟨s, hs, hfs, hlast⟩ | h0
              · exact Or.inl ⟨s, hs, hfs, getLast?_cons_some hlast⟩
              · exact Or.inr h0
      · simp only [if_neg hcond]
        have ih := sourceLoop_fails_spec fails merge fuel rest
        by_cases hf : fails (trim line) = true
        · rw [if_pos hf, if_neg (show ¬ (false = true) by simp)]
          refine ⟨?_, ?_, ?_⟩
          · exact List.cons_prefix_cons.mpr ⟨rfl, List.nil_prefix⟩
          · intro h
            exact absurd (show some (SrcErr.execErr (trim line)) = none from h) (by simp)
          · intro er her
            have her' : SrcErr.execErr (trim line) = er := Option.some_inj.mp her
            subst her'
            exact Or.inl ⟨trim line, rfl, hf, rfl⟩
        · rw [if_neg hf, if_neg (show ¬ (false = true) by simp)]
          refine ⟨?_, ?_, ?_⟩
          · exact List.cons_prefix_cons.mpr ⟨rfl, ih.1⟩
          · intro h
            rw [show sourceLoop fails merge fuel rest =
                  sourceLoop (fun _ => false) merge fuel rest from ih.2.1 h]
          · intro er her
            rcases ih.2.2 er her with ⟨s, hs, hfs, hlast⟩ | h0
            · exact Or.inl ⟨s, hs, hfs, getLast?_cons_some hlast⟩
            · exact Or.inr h0

/-- C4 counterexample: the first statement `Source` executes is the `USE`
schema selection, not the autocommit-disabling statement — the claimed order
(autocommit first, then schema selection) does not hold. -/
theorem source_order_cex :
    sourceRun (fun _ => false) (strL "u@/db?x=1") 0 [] =
      ([strL "USE db;", strL "SET autocommit=0;", strL "COMMIT;",
        strL "SET autocommit=1;"], none) ∧
    strL "USE db;" ≠ strL "SET autocommit=0;" :=
  ⟨rfl, by decide⟩

/-- C4 amended: a replay run executes, in order, the schema selection, then
the autocommit-disabling statement, then every statement derived from the
stream in stream order, then the commit, then the autocommit-enabling
statement; any execution failure aborts immediately — the attempted sequence
is a prefix of the full sequence ending at the failing statement, and
nothing (in particular no rollback) is executed after it. -/
theorem source_protocol_spec (fails : List Char → Bool)
    (dns dbName input : List Char) (merge : Int) (stmts : List (List Char))
    (hdb : getDBNameFromDNS dns = some dbName)
    (hread : sourceBody (fun _ => false) merge input = (stmts, none)) :
    sourceRun (fun _ => false) dns merge input =
      ((strL "USE " ++ dbName ++ [';']) :: strL "SET autocommit=0;" ::
        stmts ++ [strL "COMMIT;", strL "SET autocommit=1;"], none) ∧
    (sourceRun fails dns merge input).1 <+:
      ((strL "USE " ++ dbName ++ [';']) :: strL "SET autocommit=0;" ::
        stmts ++ [strL "COMMIT;", strL "SET autocommit=1;"]) ∧
    (∀ s, (sourceRun fails dns merge input).2 = some (.execErr s) →
      fails s = true ∧ (sourceRun fails dns merge input).1.getLast? = some s) := by
  have hloop := sourceLoop_fails_spec fails merge (input.length + 1) input
  have hB0 : sourceLoop (fun _ => false) merge (input.length + 1) input =
      (stmts, none) := hread
  rw [hB0] at hloop
  have hpre' : (sourceBody fails merge input).1 <+: stmts := hloop.1
  have hnone := hloop.2.1
  have hsome := hloop.2.2
  refine ⟨?_, ?_, ?_⟩
  · simp only [sourceRun, hdb, hread]
    simp
  · simp only [sourceRun, hdb]
    by_cases h1 : fails (strL "USE " ++ dbName ++ [';']) = true
    · rw [if_pos h1]
      exact List.cons_prefix_cons.mpr ⟨rfl, List.nil_prefix⟩
    · rw [if_neg h1]
      by_cases h2 : fails (strL "SET autocommit=0;") = true
      · rw [if_pos h2]
        exact List.cons_prefix_cons.mpr ⟨rfl,
          List.cons_prefix_cons.mpr ⟨rfl, List.nil_prefix⟩⟩
      · rw [if_neg h2]
        rcases hp2 : (sourceBody fails merge input).2 with _ | er
        · have hL : sourceBody fails merge input = (stmts, none) := hnone hp2
          simp only [hL]
          by_cases h3 : fails (strL "COMMIT;") = true
          · rw [if_pos h3]
            refine List.cons_prefix_cons.mpr ⟨rfl,
              List.cons_prefix_cons.mpr ⟨rfl, ?_⟩⟩
            exact prefix_append_mono (List.cons_prefix_cons.mpr ⟨rfl, List.nil_prefix⟩)
          · rw [if_neg h3]
            by_cases h4 : fails (strL "SET autocommit=1;") = true
            · rw [if_pos h4]
            · rw [if_neg h4]
        · simp only [hp2]
          exact List.cons_prefix_cons.mpr ⟨rfl,
            List.cons_prefix_cons.mpr ⟨rfl, hpre'.trans (stmts.prefix_append _)⟩⟩
  · intro s
    simp only [sourceRun, hdb]
    by_cases h1 : fails (strL "USE " ++ dbName ++ [';']) = true
    · rw [if_pos h1]
      intro hs
      obtain rfl : strL "USE " ++ dbName ++ [';'] = s := by
        have h := Option.some_inj.mp hs
        injection h
      exact ⟨h1, by simp⟩
    · rw [if_neg h1]
      by_cases h2 : fails (strL "SET autocommit=0;") = true
      · rw [if_pos h2]
        intro hs
        obtain rfl : strL "SET autocommit=0;" = s := by
          have h := Option.some_inj.mp hs
          injection h
        exact ⟨h2, by simp⟩
      · rw [if_neg h2]
        rcases hp2 : (sourceBody fails merge input).2 with _ | er
        · have hL : sourceBody fails merge input = (stmts, none) := hnone hp2
          simp only [hL]
          by_cases h3 : fails (strL "COMMIT;") = true
          · rw [if_pos h3]
            intro hs
            obtain rfl : strL "COMMIT;" = s := by
              have h := Option.some_inj.mp hs
              injection h
            refine ⟨h3, ?_⟩
            show (((strL "USE " ++ dbName ++ [';']) :: strL "SET autocommit=0;" ::
                stmts) ++ [strL "COMMIT;"]).getLast? = some (strL "COMMIT;")
            rw [List.getLast?_append_cons]
            simp
          · rw [if_neg h3]
            by_cases h4 : fails (strL "SET autocommit=1;") = true
            · rw [if_pos h4]
              intro hs
              obtain rfl : strL "SET autocommit=1;" = s := by
                have h := Option.some_inj.mp hs
                injection h
              refine ⟨h4, ?_⟩
              show (((strL "USE " ++ dbName ++ [';']) :: strL "SET autocommit=0;" ::
                  stmts) ++ [strL "COMMIT;", strL "SET autocommit=1;"]).getLast? =
                some (strL "SET autocommit=1;")
              rw [List.getLast?_append_cons]
              simp
            · rw [if_neg h4]
              intro hs
              exact absurd hs (by simp)
        · simp only [hp2]
          intro hs
          have her : er = .execErr s := Option.some_inj.mp hs
          rcases hsome er hp2 with ⟨s', hs', hfs', hlast'⟩ | habs
          · rw [her] at hs'
            obtain rfl : s = s' := by injection hs'
            exact ⟨hfs', getLast?_cons_some (getLast?_cons_some hlast')⟩
          · exact absurd (show (none : Option SrcErr) = some er from habs) (by simp)

/-- C4 amended, instantiated: a run where the connection rejects the second
stream statement, next to the same run with no failures. -/
theorem source_protocol_spec_witness :
    (getDBNameFromDNS (strL "u@/db?x=1") = some (strL "db")) ∧
    (sourceBody (fun _ => false) 0 (strL "A;B;") = ([strL "A;", strL "B;"], none)) ∧
    (sourceRun (fun _ => false) (strL "u@/db?x=1") 0 (strL "A;B;") =
      ((strL "USE " ++ strL "db" ++ [';']) :: strL "SET autocommit=0;" ::
        [strL "A;", strL "B;"] ++ [strL "COMMIT;", strL "SET autocommit=1;"], none) ∧
     (sourceRun (fun s => s == strL "B;") (strL "u@/db?x=1") 0 (strL "A;B;")).1 <+:
      ((strL "USE " ++ strL "db" ++ [';']) :: strL "SET autocommit=0;" ::
        [strL "A;", strL "B;"] ++ [strL "COMMIT;", strL "SET autocommit=1;"]) ∧
     (∀ s, (sourceRun (fun s => s == strL "B;") (strL "u@/db?x=1") 0 (strL "A;B;")).2 =
          some (.execErr s) →
        (s == strL "B;") = true ∧
        (sourceRun (fun s => s == strL "B;") (strL "u@/db?x=1") 0 (strL "A;B;")).1.getLast? =
          some s)) :=
  ⟨rfl, rfl,
   source_protocol_spec (fun s => s == strL "B;") (strL "u@/db?x=1") (strL "db")
     (strL "A;B;") 0 [strL "A;", strL "B;"] rfl rfl⟩
